import Mathlib

/-!
Verification of the skill-gap analysis core of the resume-ai-optimizer backend.

The definitions below are a shallow embedding of
`backend/app/services/gap_analyzer.py` and the rule-based path of
`backend/app/services/job_analyzer.py`.  Python strings are modelled as Lean
`String` (a wrapper around `List Char`); the character-level operations of the
source (`str.lower`, `str.strip`, the regexes of `normalize_skill`, and
`difflib.SequenceMatcher`) are modelled over `List Char`.  The source regexes
use Unicode character classes; the model fixes the ASCII fragment of `\w` and
`\s`, which is the fragment every claim exercises.  Python floats are modelled
as exact rationals.
-/

namespace ResumeAI

/-- Model of the regex class `\s` and of the whitespace stripped by
`str.strip` (ASCII fragment). -/
def pyIsSpace (c : Char) : Bool :=
  c = ' ' || c = '\t' || c = '\n' || c = '\r' || c = '\x0b' || c = '\x0c'

/-- Model of the regex class `\w` (ASCII fragment): letters, digits, underscore. -/
def pyIsWord (c : Char) : Bool :=
  c.isAlphanum || c = '_'

/-- Characters kept by `re.sub(r'[^\w\s\+\#\.]', '', skill)` in
`GapAnalyzerService.normalize_skill`: word characters, whitespace, and `+ # .`. -/
def allowedChar (c : Char) : Bool :=
  pyIsWord c || pyIsSpace c || c = '+' || c = '#' || c = '.'

/-- Model of `str.lower` on a character (ASCII case mapping); this is exactly
core `Char.toLower`, restated here so the model is self-contained. -/
def pyToLower (c : Char) : Char :=
  if 65 ≤ c.toNat ∧ c.toNat ≤ 90 then Char.ofNat (c.toNat + 32) else c

/-- Model of `str.lower` (ASCII fragment). -/
def pyLower (s : List Char) : List Char :=
  s.map pyToLower

/-- Drops the longest suffix of the list all of whose characters satisfy `p`.
Together with `List.dropWhile` this models `str.strip`. -/
def dropEndWhile (p : Char → Bool) : List Char → List Char
  | [] => []
  | c :: cs =>
    let r := dropEndWhile p cs
    if r.isEmpty && p c then [] else c :: r

/-- Model of `str.strip`: remove leading and trailing whitespace. -/
def pyStrip (s : List Char) : List Char :=
  dropEndWhile pyIsSpace (s.dropWhile pyIsSpace)

/-- Worker for `collapseWs`; the flag records whether the previously emitted
character came from a whitespace run that is already represented by `' '`. -/
def collapseWsAux : Bool → List Char → List Char
  | _, [] => []
  | prevSpace, c :: cs =>
    if pyIsSpace c then
      if prevSpace then collapseWsAux true cs
      else ' ' :: collapseWsAux true cs
    else c :: collapseWsAux false cs

/-- Model of `re.sub(r'\s+', ' ', s)`: every maximal whitespace run is replaced
by a single space. -/
def collapseWs (s : List Char) : List Char :=
  collapseWsAux false s

/-- Model of `GapAnalyzerService.normalize_skill`:
lower-case and strip, remove the characters outside `[\w\s\+\#\.]`, then
collapse whitespace runs to single spaces. -/
def normalize_skill (skill : String) : String :=
  String.mk (collapseWs (List.filter allowedChar (pyStrip (pyLower skill.data))))

/-- String-level wrapper of `pyStrip`. -/
def pyStripS (s : String) : String :=
  String.mk (pyStrip s.data)

/-! ### Model of `difflib.SequenceMatcher` (as used with `isjunk = None`)

`are_skills_similar` calls `SequenceMatcher(None, skill1, skill2).ratio()`.
With `isjunk = None` the junk set `bjunk` is always empty, so the two
junk-extension loops of `find_longest_match` are dead code and are omitted;
the autojunk filter on popular elements of `b` (active when `len(b) >= 200`)
is part of `b2j` below. -/

/-- Positions `j` with `b[j] = c`, in increasing order; this is the entry of
the `b2j` dictionary built by `SequenceMatcher.__chain_b`, after the autojunk
filter deleted elements occurring in more than one percent of a `b` of length
at least 200. -/
def b2j (b : List Char) (c : Char) : List Nat :=
  let idxs := (List.range b.length).filter (fun j => b.getD j ' ' = c)
  if 200 ≤ b.length && b.length / 100 + 1 < idxs.length then [] else idxs

/-- Lookup in the `j2len` association list of `find_longest_match`, with the
dictionary default 0. -/
def lookupD (m : List (Nat × Nat)) (k : Nat) : Nat :=
  (((m.find? (fun p => p.1 = k)).map Prod.snd).getD 0)

/-- One iteration of the inner loop of `find_longest_match`: `j` ranges over
`b2j[a[i]]`; positions below `blo` are skipped and positions from `bhi` on are
skipped (the source breaks there, which is equivalent as the positions are
increasing).  The state is the `newj2len` list under construction together
with the current `(besti, bestj, bestsize)`. -/
def flmRowStep (blo bhi i : Nat) (j2len : List (Nat × Nat))
    (st : List (Nat × Nat) × Nat × Nat × Nat) (j : Nat) :
    List (Nat × Nat) × Nat × Nat × Nat :=
  if j < blo then st
  else if bhi ≤ j then st
  else
    let k := (if j = 0 then 0 else lookupD j2len (j - 1)) + 1
    let newj2len := (j, k) :: st.1
    if st.2.2.2 < k then (newj2len, i + 1 - k, j + 1 - k, k)
    else (newj2len, st.2)

/-- The main double loop of `find_longest_match` before the extension loops. -/
def flmMain (a b : List Char) (alo ahi blo bhi : Nat) : Nat × Nat × Nat :=
  ((List.range' alo (ahi - alo)).foldl
    (fun (st : List (Nat × Nat) × Nat × Nat × Nat) i =>
      ((b2j b (a.getD i ' ')).foldl (flmRowStep blo bhi i st.1) ([], st.2)))
    ([], (alo, blo, 0))).2

/-- First extension loop of `find_longest_match`: grow the block backwards
while the adjacent characters match (the junk test is vacuous).  The fuel is
`besti`, which bounds the number of possible decrements. -/
def extendBack (a b : List Char) (alo blo : Nat) :
    Nat → Nat → Nat → Nat → Nat × Nat × Nat
  | 0, besti, bestj, bestsize => (besti, bestj, bestsize)
  | fuel + 1, besti, bestj, bestsize =>
    if alo < besti && blo < bestj &&
        (a.getD (besti - 1) '\x00' = b.getD (bestj - 1) '\x01') then
      extendBack a b alo blo fuel (besti - 1) (bestj - 1) (bestsize + 1)
    else (besti, bestj, bestsize)

/-- Second extension loop of `find_longest_match`: grow the block forwards
while the adjacent characters match.  The fuel is `ahi`. -/
def extendFwd (a b : List Char) (ahi bhi besti bestj : Nat) :
    Nat → Nat → Nat
  | 0, bestsize => bestsize
  | fuel + 1, bestsize =>
    if besti + bestsize < ahi && bestj + bestsize < bhi &&
        (a.getD (besti + bestsize) '\x00' = b.getD (bestj + bestsize) '\x01') then
      extendFwd a b ahi bhi besti bestj fuel (bestsize + 1)
    else bestsize

/-- Model of `SequenceMatcher.find_longest_match` restricted to
`a[alo:ahi]` and `b[blo:bhi]`. -/
def find_longest_match (a b : List Char) (alo ahi blo bhi : Nat) :
    Nat × Nat × Nat :=
  let m := flmMain a b alo ahi blo bhi
  let e := extendBack a b alo blo m.1 m.1 m.2.1 m.2.2
  let k := extendFwd a b ahi bhi e.1 e.2.1 ahi e.2.2
  (e.1, e.2.1, k)

/-- Total size of the matching blocks of `SequenceMatcher.get_matching_blocks`
on the window `a[alo:ahi]`, `b[blo:bhi]`: the longest match splits the window
in two, which are processed recursively.  The fuel bounds the recursion depth,
which is at most the sum of the window lengths since every split strictly
shrinks it; callers pass fuel larger than that bound. -/
def matchedCountF (a b : List Char) : Nat → Nat → Nat → Nat → Nat → Nat
  | 0, _, _, _, _ => 0
  | fuel + 1, alo, ahi, blo, bhi =>
    let m := find_longest_match a b alo ahi blo bhi
    if m.2.2 = 0 then 0
    else
      matchedCountF a b fuel alo m.1 blo m.2.1 + m.2.2 +
        matchedCountF a b fuel (m.1 + m.2.2) ahi (m.2.1 + m.2.2) bhi

/-- Model of `SequenceMatcher(None, a, b).ratio()`:
`2 * matches / (len(a) + len(b))`, and 1 when both strings are empty
(`difflib._calculate_ratio`).  The float division of the source is modelled
as the exact rational `mkRat`. -/
def pyRatio (a b : List Char) : ℚ :=
  if a.length + b.length = 0 then 1
  else
    mkRat (2 * (matchedCountF a b (a.length + b.length + 1) 0 a.length 0 b.length : Int))
      (a.length + b.length)

/-- Ratio on the string wrappers. -/
def pyRatioS (a b : String) : ℚ :=
  pyRatio a.data b.data

/-! ### Skill similarity and matching (`GapAnalyzerService`) -/

/-- The `skill_synonyms` table built in `GapAnalyzerService.__init__`:
canonical name paired with its alias list. -/
def skill_synonyms : List (String × List String) :=
  [("javascript", ["js", "ecmascript", "javascript"]),
   ("typescript", ["ts", "typescript"]),
   ("python", ["python", "python3", "py"]),
   ("java", ["java", "openjdk"]),
   ("react", ["react.js", "reactjs", "react"]),
   ("node", ["node.js", "nodejs", "node"]),
   ("postgresql", ["postgres", "postgresql", "psql"]),
   ("mongodb", ["mongo", "mongodb"]),
   ("aws", ["amazon web services", "aws"]),
   ("gcp", ["google cloud", "gcp", "google cloud platform"]),
   ("azure", ["microsoft azure", "azure"]),
   ("docker", ["docker", "containerization"]),
   ("kubernetes", ["k8s", "kubernetes"]),
   ("fastapi", ["fastapi", "fast api"]),
   ("django", ["django"]),
   ("flask", ["flask"]),
   ("express", ["express.js", "expressjs", "express"]),
   ("redis", ["redis"]),
   ("git", ["git", "version control"]),
   ("ci/cd", ["ci/cd", "continuous integration", "continuous deployment", "devops"])]

/-- Contiguous-substring test on character lists; models Python `sub in hay`
for strings.  The empty pattern occurs in every string, as in Python. -/
def subIn (pat : List Char) : List Char → Bool
  | [] => pat.isEmpty
  | c :: cs => pat.isPrefixOf (c :: cs) || subIn pat cs

/-- Model of Python `sub in hay` on strings. -/
def pyIn (sub hay : String) : Bool :=
  subIn sub.data hay.data

/-- Model of `GapAnalyzerService.are_skills_similar(skill1, skill2, threshold)`:
normalize both, then test exact equality, shared membership in a synonym
list, `SequenceMatcher` ratio at least `threshold`, and substring containment
in either direction, in that order. -/
def are_skills_similar (skill1 skill2 : String) (threshold : ℚ) : Bool :=
  let s1 := normalize_skill skill1
  let s2 := normalize_skill skill2
  if s1 = s2 then true
  else if skill_synonyms.any (fun p => p.2.contains s1 && p.2.contains s2) then true
  else if threshold ≤ pyRatioS s1 s2 then true
  else if pyIn s1 s2 || pyIn s2 s1 then true
  else false

/-- The default value of the `threshold` parameter of `are_skills_similar`
(`0.8` in the source). -/
def defaultThreshold : ℚ := mkRat 4 5

/-- The per-job-skill loop of `GapAnalyzerService.find_skill_matches`: a job
skill is matching when it occurs verbatim in the normalized resume skills or
is similar to one of them (the source breaks at the first similar resume
skill, which the existential `any` models), and missing otherwise. -/
def matchLoop (nr : List String) : List String → List String × List String
  | [] => ([], [])
  | j :: rest =>
    let found := nr.contains j || nr.any (fun r => are_skills_similar j r defaultThreshold)
    let p := matchLoop nr rest
    if found then (j :: p.1, p.2) else (p.1, j :: p.2)

/-- Model of `GapAnalyzerService.find_skill_matches(resume_skills, job_skills)`:
both lists are normalized, and each normalized job skill is classified as
matching or missing, preserving order. -/
def find_skill_matches (resume_skills job_skills : List String) :
    List String × List String :=
  matchLoop (resume_skills.map normalize_skill) (job_skills.map normalize_skill)

/-! ### Resume skill extraction (`GapAnalyzerService`) -/

/-- The `tech_patterns` vocabulary of
`GapAnalyzerService.extract_technologies_from_text`. -/
def tech_patterns : List String :=
  ["python", "javascript", "java", "typescript", "php", "ruby", "go", "rust",
   "react", "angular", "vue", "nodejs", "express", "django", "flask", "fastapi",
   "postgresql", "mysql", "mongodb", "redis", "sqlite", "elasticsearch",
   "aws", "azure", "gcp", "docker", "kubernetes", "terraform", "jenkins",
   "git", "jira", "confluence", "slack", "figma"]

/-- Model of `GapAnalyzerService.extract_technologies_from_text(text)`: empty
text yields nothing; otherwise the lowercased text is scanned for each fixed
vocabulary entry, in vocabulary order. -/
def extract_technologies_from_text (text : String) : List String :=
  if text.data.isEmpty then []
  else
    let t := String.mk (pyLower text.data)
    tech_patterns.filter (fun p => pyIn p t)

/-- One entry of the `experience` list of parsed resume data; only the
`content` key is read by the gap analyzer (`exp.get('content', '')`). -/
structure ExperienceEntry where
  content : Option String
deriving DecidableEq

/-- The `parsed_data` dictionary of a resume: each key read by
`extract_skills_from_resume` is optional, as in the source dictionaries. -/
structure ParsedData where
  programming_languages : Option (List String)
  skills : Option (List String)
  experience : Option (List ExperienceEntry)
deriving DecidableEq

/-- The `resume_data` dictionary: the gap analyzer only reads
`parsed_data`. -/
structure ResumeData where
  parsed_data : Option ParsedData
deriving DecidableEq

/-- Deduplication keeping first occurrences; models `list(set(xs))` of the
source.  CPython's set iteration order is implementation defined, so the model
fixes one order; no claim depends on the order of the deduplicated list. -/
def pySetList (xs : List String) : List String :=
  (xs.foldl (fun acc s => if acc.contains s then acc else s :: acc) []).reverse

/-- Model of `GapAnalyzerService.extract_skills_from_resume(resume_data)`:
collect programming languages, the skills section, and technologies mentioned
in experience text, then keep the non-blank ones stripped and deduplicate.
A `None`/absent list contributes nothing, exactly like the falsy-dict checks
of the source. -/
def extract_skills_from_resume (rd : ResumeData) : List String :=
  let skills : List String :=
    match rd.parsed_data with
    | none => []
    | some parsed =>
      (parsed.programming_languages.getD []) ++
      (parsed.skills.getD []) ++
      ((parsed.experience.getD []).map
        (fun e => extract_technologies_from_text (e.content.getD ("")))).flatten
  let cleaned :=
    (skills.filter (fun s => !(pyStrip s.data).isEmpty)).map
      (fun s => String.mk (pyStrip s.data))
  pySetList cleaned

/-! ### Experience analysis (`GapAnalyzerService`) -/

/-- The job-requirements dictionary as consumed by `analyze_gap` and
`calculate_experience_gap` (`job_requirements.get(key, default)`): every key
is optional. -/
structure JobReqDict where
  required_skills : Option (List String)
  preferred_skills : Option (List String)
  programming_languages : Option (List String)
  frameworks : Option (List String)
  databases : Option (List String)
  cloud_platforms : Option (List String)
  required_experience_years : Option Int
  experience_level : Option String
deriving DecidableEq

/-- Model of `GapAnalyzerService.calculate_experience_gap`:
`None` when the required years are falsy (absent or 0); a falsy resume
experience defaults to 2; a non-positive difference is clamped to 0.
Python truthiness of the optional integers is modelled explicitly. -/
def calculate_experience_gap (resume_experience : Option Int)
    (jr : JobReqDict) : Option Int :=
  match jr.required_experience_years with
  | none => none
  | some ry =>
    if ry = 0 then none
    else
      let re :=
        match resume_experience with
        | none => 2
        | some x => if x = 0 then 2 else x
      let gap := ry - re
      some (if 0 < gap then gap else 0)

/-- The `level_hierarchy` dictionary of
`GapAnalyzerService.check_experience_level_match`. -/
def level_hierarchy : List (String × Nat) :=
  [("entry", 1), ("junior", 1), ("mid", 2), ("intermediate", 2),
   ("senior", 3), ("lead", 4), ("principal", 4), ("executive", 5)]

/-- Rank of an experience level: dictionary lookup of the lowercased level
with default 1 (`level_hierarchy.get(level.lower(), 1)`). -/
def levelRank (level : String) : Nat :=
  (((level_hierarchy.find? (fun p => p.1 = String.mk (pyLower level.data))).map
    Prod.snd).getD 1)

/-- Model of `GapAnalyzerService.check_experience_level_match`: the resume
rank must be at least the job rank. -/
def check_experience_level_match (resume_level job_level : String) : Bool :=
  levelRank job_level ≤ levelRank resume_level

/-! ### Gap analysis result, recommendations and priorities -/

/-- One entry of the `improvement_priority` list: the dictionary literal
built by `calculate_priority_scores`. -/
structure PriorityItem where
  category : String
  item : String
  priority_score : Nat
  urgency : String
deriving DecidableEq

/-- The `GapAnalysisResult` pydantic model, with the source's field
defaults. -/
structure GapAnalysisResult where
  overall_match_score : ℚ := 0
  matching_skills : List String := []
  missing_required_skills : List String := []
  missing_preferred_skills : List String := []
  experience_gap : Option Int := none
  experience_level_match : Bool := false
  matching_technologies : List String := []
  missing_technologies : List String := []
  matching_languages : List String := []
  missing_languages : List String := []
  matching_frameworks : List String := []
  missing_frameworks : List String := []
  matching_databases : List String := []
  missing_databases : List String := []
  matching_cloud_platforms : List String := []
  missing_cloud_platforms : List String := []
  recommendations : List String := []
  improvement_priority : List PriorityItem := []
deriving DecidableEq

/-- Model of `GapAnalyzerService.generate_recommendations(gap_result)`:
templated sentences for each non-empty gap category.  The truthiness test
`experience_gap and experience_gap > 0` reduces to the positivity test on a
present value. -/
def generate_recommendations (g : GapAnalysisResult) : List String :=
  (match g.experience_gap with
   | some gap =>
     if 0 < gap then
       ["Gain " ++ toString gap ++ " more years of relevant experience"]
     else []
   | none => []) ++
  (if g.experience_level_match then []
   else ["Consider taking on more senior responsibilities or leadership roles"]) ++
  (if g.missing_required_skills.isEmpty then []
   else ["Learn these critical skills: " ++
     String.intercalate (", ") (g.missing_required_skills.take 3)]) ++
  (if g.missing_languages.isEmpty then []
   else ["Consider learning: " ++
     String.intercalate (", ") (g.missing_languages.take 2)]) ++
  (if g.missing_frameworks.isEmpty then []
   else ["Gain experience with: " ++
     String.intercalate (", ") (g.missing_frameworks.take 2)]) ++
  (if g.missing_databases.isEmpty then []
   else ["Learn database technologies: " ++
     String.intercalate (", ") g.missing_databases]) ++
  (if g.missing_cloud_platforms.isEmpty then []
   else ["Get cloud platform experience: " ++
     String.intercalate (", ") g.missing_cloud_platforms])

/-- Stable descending comparison on priority scores: an element goes before
another exactly when its score is at least as large, so that insertion sort
reproduces Python's stable `sort(key=..., reverse=True)`. -/
def priorityGe (a b : PriorityItem) : Prop :=
  b.priority_score ≤ a.priority_score

instance : DecidableRel priorityGe :=
  fun a b => inferInstanceAs (Decidable (b.priority_score ≤ a.priority_score))

/-- Model of `GapAnalyzerService.calculate_priority_scores(gap_result)`:
one item per missing entry with the fixed category score and urgency, built
in category order, then stably sorted by descending score. -/
def calculate_priority_scores (g : GapAnalysisResult) : List PriorityItem :=
  let priorities :=
    g.missing_required_skills.map
      (fun s => PriorityItem.mk ("Required Skill") s 10 ("Critical")) ++
    g.missing_languages.map
      (fun s => PriorityItem.mk ("Programming Language") s 8 ("High")) ++
    g.missing_frameworks.map
      (fun s => PriorityItem.mk ("Framework") s 7 ("High")) ++
    g.missing_databases.map
      (fun s => PriorityItem.mk ("Database") s 6 ("Medium")) ++
    g.missing_cloud_platforms.map
      (fun s => PriorityItem.mk ("Cloud Platform") s 6 ("Medium")) ++
    g.missing_preferred_skills.map
      (fun s => PriorityItem.mk ("Preferred Skill") s 4 ("Low"))
  priorities.insertionSort priorityGe

/-- Model of `GapAnalyzerService.analyze_gap(resume_data, job_requirements)`.
The source fixes `resume_experience_years = None` and resume level `'mid'`
inside this method; the overall score is the matched fraction of the
required-skill, language and framework categories, clamped to 1, and 0 when
those categories are empty. -/
def analyze_gap (resume_data : ResumeData) (jr : JobReqDict) : GapAnalysisResult :=
  let resume_skills := extract_skills_from_resume resume_data
  let req := find_skill_matches resume_skills (jr.required_skills.getD [])
  let pref := find_skill_matches resume_skills (jr.preferred_skills.getD [])
  let lang := find_skill_matches resume_skills (jr.programming_languages.getD [])
  let fw := find_skill_matches resume_skills (jr.frameworks.getD [])
  let db := find_skill_matches resume_skills (jr.databases.getD [])
  let cloud := find_skill_matches resume_skills (jr.cloud_platforms.getD [])
  let experience_gap := calculate_experience_gap none jr
  let experience_level_match :=
    check_experience_level_match ("mid") (jr.experience_level.getD ("entry"))
  let total_required :=
    (jr.required_skills.getD []).length +
    (jr.programming_languages.getD []).length +
    (jr.frameworks.getD []).length
  let match_score : ℚ :=
    if 0 < total_required then
      min (mkRat (req.1.length + lang.1.length + fw.1.length : Int) total_required) 1
    else 0
  let g : GapAnalysisResult :=
    { overall_match_score := match_score
      matching_skills := req.1 ++ pref.1
      missing_required_skills := req.2
      missing_preferred_skills := pref.2
      experience_gap := experience_gap
      experience_level_match := experience_level_match
      matching_technologies := lang.1 ++ fw.1
      missing_technologies := lang.2 ++ fw.2
      matching_languages := lang.1
      missing_languages := lang.2
      matching_frameworks := fw.1
      missing_frameworks := fw.2
      matching_databases := db.1
      missing_databases := db.2
      matching_cloud_platforms := cloud.1
      missing_cloud_platforms := cloud.2 }
  { g with
    recommendations := generate_recommendations g
    improvement_priority := calculate_priority_scores g }

/-! ### Job description analysis (`JobAnalyzerService`)

The LLM-backed paths (`analyze_with_openai`, `analyze_with_gemini`) are
external network calls; the model fixes the configuration with no API keys,
in which `analyze_job_description` deterministically takes the rule-based
path.  The emptiness guard that the claims exercise runs before any provider
is consulted. -/

/-- The `JobRequirements` pydantic model with the source's field defaults. -/
structure JobRequirements where
  required_skills : List String := []
  preferred_skills : List String := []
  required_experience_years : Option Int := none
  experience_level : String := ("entry")
  technologies : List String := []
  programming_languages : List String := []
  frameworks : List String := []
  databases : List String := []
  cloud_platforms : List String := []
  tools : List String := []
  certifications : List String := []
  education_requirements : List String := []
  responsibilities : List String := []
  company_size : Option String := none
  industry : Option String := none
  work_location : Option String := none
  salary_range : Option String := none
deriving DecidableEq

/-- Case-insensitive prefix test: the pattern is given lowercase and each
text character is lowercased before comparison (models `re.IGNORECASE` for
literal patterns, ASCII fragment). -/
def ciLitAt : List Char → List Char → Bool
  | [], _ => true
  | _ :: _, [] => false
  | p :: ps, c :: cs => p = pyToLower c && ciLitAt ps cs

/-- Case-insensitive substring test. -/
def ciSubIn (pat : List Char) : List Char → Bool
  | [] => pat.isEmpty
  | c :: cs => ciLitAt pat (c :: cs) || ciSubIn pat cs

/-- Deletes everything from the leftmost case-insensitive occurrence of `pat`
to the end.  This models `re.sub(pat + '.*?$', '', s)` on a string without
newlines (in `clean_job_description` all whitespace was collapsed to spaces
first, so `$` only matches the end and the lazy `.*?` must stretch to it). -/
def cutFromLit (pat : List Char) : List Char → List Char
  | [] => []
  | c :: cs => if ciLitAt pat (c :: cs) then [] else c :: cutFromLit pat cs

/-- Deletes everything from the leftmost position where `p1` occurs and `p2`
occurs at or after the end of that occurrence; models
`re.sub(p1 + '.*?' + p2 + '.*?$', '', s)` on a newline-free string. -/
def cutFromLitPair (p1 p2 : List Char) : List Char → List Char
  | [] => []
  | c :: cs =>
    if ciLitAt p1 (c :: cs) && ciSubIn p2 ((c :: cs).drop p1.length) then []
    else c :: cutFromLitPair p1 p2 cs

/-- Model of `JobAnalyzerService.clean_job_description`: strip, collapse
whitespace runs to single spaces, then drop the four boilerplate tails and
strip again. -/
def clean_job_description (jd : String) : String :=
  let cleaned := collapseWs (pyStrip jd.data)
  let c1 := cutFromLit ("apply now").data cleaned
  let c2 := cutFromLitPair ("submit").data ("resume").data c1
  let c3 := cutFromLit ("equal opportunity employer").data c2
  let c4 := cutFromLit ("we are an equal").data c3
  String.mk (pyStrip c4)

/-- Numeric value of a run of ASCII digits, as read by `int(...)`. -/
def natOfDigits (ds : List Char) : Nat :=
  ds.foldl (fun a c => a * 10 + (c.toNat - 48)) 0

/-- Consume a non-empty maximal digit run (regex `(\d+)`, ASCII fragment);
the tokens following it in the experience patterns cannot consume digits, so
the greedy run never needs to backtrack. -/
def digitsPre (s : List Char) : Option (Nat × List Char) :=
  let ds := s.takeWhile Char.isDigit
  if ds.isEmpty then none else some (natOfDigits ds, s.drop ds.length)

/-- Consume a literal (a regex literal fragment; the experience patterns run
on text that was already lowercased). -/
def lit (pat s : List Char) : Option (List Char) :=
  if pat.isPrefixOf s then some (s.drop pat.length) else none

/-- Matcher for `(\d+)\+?\s*years?\s*(?:of\s*)?experience` at the start of
`s`, returning the captured number.  The optional `+` and `s` are consumed
when present: the following tokens can never consume these characters, so
the greedy choice is the only viable one. -/
def expPat1At (s : List Char) : Option Nat := do
  let (n, s) ← digitsPre s
  let s := if s.head? = some '+' then s.drop 1 else s
  let s := s.dropWhile pyIsSpace
  let s ← lit ("year").data s
  let s := if s.head? = some 's' then s.drop 1 else s
  let s := s.dropWhile pyIsSpace
  match (do
    let t ← lit ("of").data s
    lit ("experience").data (t.dropWhile pyIsSpace) : Option (List Char)) with
  | some _ => some n
  | none => do
    let _ ← lit ("experience").data s
    some n

/-- Matcher for `(\d+)\+?\s*years?\s*(?:in|with)` at the start of `s`. -/
def expPat2At (s : List Char) : Option Nat := do
  let (n, s) ← digitsPre s
  let s := if s.head? = some '+' then s.drop 1 else s
  let s := s.dropWhile pyIsSpace
  let s ← lit ("year").data s
  let s := if s.head? = some 's' then s.drop 1 else s
  let s := s.dropWhile pyIsSpace
  match lit ("in").data s with
  | some _ => some n
  | none => do
    let _ ← lit ("with").data s
    some n

/-- Matcher for `minimum\s*(\d+)\s*years?` at the start of `s`. -/
def expPat3At (s : List Char) : Option Nat := do
  let s ← lit ("minimum").data s
  let (n, s) ← digitsPre (s.dropWhile pyIsSpace)
  let _ ← lit ("year").data (s.dropWhile pyIsSpace)
  some n

/-- Matcher for `(\d+)\+\s*years?` at the start of `s`. -/
def expPat4At (s : List Char) : Option Nat := do
  let (n, s) ← digitsPre s
  let s ← lit ("+").data s
  let _ ← lit ("year").data (s.dropWhile pyIsSpace)
  some n

/-- Model of `re.search` for the experience patterns: try every start
position from the left and return the first captured number. -/
def reSearch (pAt : List Char → Option Nat) (s : List Char) : Option Nat :=
  (List.range (s.length + 1)).findSome? (fun i => pAt (s.drop i))

/-- Model of `str.upper` on a character (ASCII case mapping). -/
def pyToUpper (c : Char) : Char :=
  if 97 ≤ c.toNat ∧ c.toNat ≤ 122 then Char.ofNat (c.toNat - 32) else c

/-- Python `str.title` (ASCII fragment): the first letter of each maximal
letter run is uppercased, the rest lowercased. -/
def pyTitleAux : Bool → List Char → List Char
  | _, [] => []
  | prevCased, c :: cs =>
    if c.isAlpha then
      (if prevCased then pyToLower c else pyToUpper c) :: pyTitleAux true cs
    else c :: pyTitleAux false cs

/-- Model of `str.title` (ASCII fragment). -/
def pyTitle (s : String) : String :=
  String.mk (pyTitleAux false s.data)

/-- Model of `str.upper` (ASCII fragment). -/
def pyUpper (s : String) : String :=
  String.mk (s.data.map pyToUpper)

/-- Model of `framework.replace('js', '.js')`: every occurrence of `js` gets
a dot prefix, scanning left to right. -/
def replaceJsDotJs : List Char → List Char
  | [] => []
  | 'j' :: 's' :: rest => '.' :: 'j' :: 's' :: replaceJsDotJs rest
  | c :: rest => c :: replaceJsDotJs rest

/-- True when any of the (lowercase) literals occurs in the text. -/
def containsAny (text : List Char) (pats : List String) : Bool :=
  pats.any (fun p => subIn p.data text)

/-- Model of `JobAnalyzerService.extract_basic_requirements`: rule-based
extraction over the lowercased description, with the source's fixed
vocabularies and pattern order. -/
def extract_basic_requirements (job_description : String) : JobRequirements :=
  let text := pyLower job_description.data
  let experience_level :=
    if containsAny text [("senior"), ("sr."), ("lead"), ("principal")] then
      ("senior" : String)
    else if containsAny text
        [("mid-level"), ("intermediate"), ("3+ years"), ("4+ years")] then ("mid")
    else if containsAny text
        [("entry"), ("junior"), ("new grad"), ("recent graduate")] then ("entry")
    else ("entry")
  let years : Option Int :=
    ((((reSearch expPat1At text).orElse (fun _ => reSearch expPat2At text)).orElse
      (fun _ => reSearch expPat3At text)).orElse
      (fun _ => reSearch expPat4At text)).map (fun n => (n : Int))
  let prog_languages :=
    (([("python"), ("javascript"), ("java"), ("c++"), ("c#"), ("php"), ("ruby"),
       ("go"), ("rust"), ("typescript"), ("swift"), ("kotlin"), ("scala"), ("r"),
       ("matlab"), ("sql")] : List String).filter
      (fun l => subIn l.data text)).map pyTitle
  let frameworks :=
    (([("react"), ("angular"), ("vue"), ("nodejs"), ("express"), ("django"),
       ("flask"), ("spring"), ("rails"), ("laravel"), ("fastapi"), ("nextjs"),
       ("nuxt")] : List String).filter
      (fun f => subIn f.data text || subIn (replaceJsDotJs f.data) text)).map pyTitle
  let databases :=
    (([("postgresql"), ("mysql"), ("mongodb"), ("redis"), ("sqlite"), ("oracle"),
       ("cassandra"), ("elasticsearch"), ("dynamodb")] : List String).filter
      (fun d => subIn d.data text)).map pyTitle
  let cloud_platforms :=
    (([("aws"), ("azure"), ("gcp"), ("google cloud"), ("heroku"),
       ("digitalocean")] : List String).filter
      (fun p => subIn p.data text)).map
      (fun p => if p = ("aws") ∨ p = ("gcp") then pyUpper p else pyTitle p)
  let tools :=
    (([("git"), ("docker"), ("kubernetes"), ("jenkins"), ("terraform"),
       ("ansible"), ("jira"), ("confluence"), ("slack"), ("figma"),
       ("postman")] : List String).filter
      (fun t => subIn t.data text)).map pyTitle
  let work_location : Option String :=
    if containsAny text [("remote"), ("work from home"), ("wfh")] then
      some ("remote")
    else if containsAny text [("hybrid"), ("flexible")] then some ("hybrid")
    else if containsAny text [("on-site"), ("onsite"), ("office")] then
      some ("onsite")
    else none
  { experience_level := experience_level
    required_experience_years := years
    programming_languages := prog_languages
    frameworks := frameworks
    databases := databases
    cloud_platforms := cloud_platforms
    tools := tools
    work_location := work_location }

/-- Model of `JobAnalyzerService.validate_requirements`: deduplicate the
eight list fields, reset an unknown experience level to `entry`, and clear a
truthy negative experience-years value (the truthiness test makes the guard
equivalent to a plain negativity test). -/
def validate_requirements (r : JobRequirements) : JobRequirements :=
  let r :=
    { r with
      required_skills := pySetList r.required_skills
      preferred_skills := pySetList r.preferred_skills
      technologies := pySetList r.technologies
      programming_languages := pySetList r.programming_languages
      frameworks := pySetList r.frameworks
      databases := pySetList r.databases
      cloud_platforms := pySetList r.cloud_platforms
      tools := pySetList r.tools }
  let r :=
    if ([("entry"), ("mid"), ("senior"), ("executive")] : List String).contains
        r.experience_level then r
    else { r with experience_level := ("entry") }
  match r.required_experience_years with
  | some n => if n < 0 then { r with required_experience_years := none } else r
  | none => r

/-- Model of `JobAnalyzerService.analyze_job_description` in the
configuration with no LLM provider enabled: reject empty or whitespace-only
text, otherwise clean, run the rule-based extractor and validate.  The
`ValueError` of the source is an `Except.error`. -/
def analyze_job_description (jd : String) : Except String JobRequirements :=
  if jd.data.isEmpty || (pyStrip jd.data).isEmpty then
    Except.error ("Job description cannot be empty")
  else
    Except.ok (validate_requirements
      (extract_basic_requirements (clean_job_description jd)))

/-! ### Support lemmas -/

/-- The empty pattern is a substring of every string, as in Python. -/
theorem subIn_nil (l : List Char) : subIn [] l = true := by
  cases l <;> rfl

/-- Shared synonym membership is symmetric in the two skills. -/
theorem any_and_comm (l : List (String × List String)) (x y : String) :
    l.any (fun p => p.2.contains x && p.2.contains y) =
    l.any (fun p => p.2.contains y && p.2.contains x) := by
  induction l with
  | nil => rfl
  | cons p t ih => simp [List.any_cons, ih, Bool.and_comm]

/-! ### Normal forms of normalized skills (for claims C2 and C3) -/

/-- Conversion to a valid scalar value and back is the identity on the
numeric side. -/
theorem char_toNat_ofNat_valid (n : Nat) (h : n.isValidChar) :
    (Char.ofNat n).toNat = n := by
  rw [Char.ofNat, dif_pos h]
  rfl

/-- Lowercasing a character twice is the same as lowercasing it once. -/
theorem pyToLower_idem (c : Char) : pyToLower (pyToLower c) = pyToLower c := by
  unfold pyToLower
  by_cases h : 65 ≤ c.toNat ∧ c.toNat ≤ 90
  · rw [if_pos h]
    have hv : (c.toNat + 32).isValidChar := Or.inl (by omega)
    rw [char_toNat_ofNat_valid _ hv]
    rw [if_neg (by omega)]
  · rw [if_neg h, if_neg h]

/-- Every character of the whitespace-collapsed list is a space or comes
from the input. -/
theorem mem_collapseWsAux {c : Char} :
    ∀ (b : Bool) (s : List Char), c ∈ collapseWsAux b s → c = ' ' ∨ c ∈ s := by
  intro b s
  induction s generalizing b with
  | nil => intro h; exact absurd h (by simp [collapseWsAux])
  | cons d cs ih =>
    intro h
    rw [collapseWsAux] at h
    by_cases hd : pyIsSpace d
    · rw [if_pos hd] at h
      by_cases hb : b
      · rw [if_pos hb] at h
        rcases ih true h with h1 | h1
        · exact Or.inl h1
        · exact Or.inr (List.mem_cons_of_mem _ h1)
      · rw [if_neg hb] at h
        rcases List.mem_cons.mp h with h1 | h1
        · exact Or.inl h1
        · rcases ih true h1 with h2 | h2
          · exact Or.inl h2
          · exact Or.inr (List.mem_cons_of_mem _ h2)
    · rw [if_neg hd] at h
      rcases List.mem_cons.mp h with h1 | h1
      · exact Or.inr (h1 ▸ List.mem_cons_self _ _)
      · rcases ih false h1 with h2 | h2
        · exact Or.inl h2
        · exact Or.inr (List.mem_cons_of_mem _ h2)

/-- Dropping a trailing run only removes characters. -/
theorem mem_dropEndWhile {p : Char → Bool} {c : Char} :
    ∀ s : List Char, c ∈ dropEndWhile p s → c ∈ s := by
  intro s
  induction s with
  | nil => intro h; exact absurd h (by simp [dropEndWhile])
  | cons d cs ih =>
    intro h
    rw [dropEndWhile] at h
    split at h
    · exact absurd h (by simp)
    · rcases List.mem_cons.mp h with h1 | h1
      · exact h1 ▸ List.mem_cons_self _ _
      · exact List.mem_cons_of_mem _ (ih h1)

/-- Stripping only removes characters. -/
theorem mem_pyStrip {c : Char} {s : List Char} (h : c ∈ pyStrip s) : c ∈ s :=
  List.dropWhile_sublist pyIsSpace |>.subset (mem_dropEndWhile _ h)

/-- Whitespace normal form: every whitespace character is a plain space and
no two adjacent characters are both whitespace. -/
def spacesOk : List Char → Bool
  | [] => true
  | [c] => !(pyIsSpace c) || (c = ' ')
  | c :: d :: rest =>
    (!(pyIsSpace c) || ((c = ' ') && !(pyIsSpace d))) && spacesOk (d :: rest)

/-- The whitespace normal form only constrains adjacent positions, so it
passes to the tail. -/
theorem spacesOk_tail {c : Char} {cs : List Char}
    (h : spacesOk (c :: cs) = true) : spacesOk cs = true := by
  cases cs with
  | nil => rfl
  | cons d rest => exact (Bool.and_eq_true_iff.mp h).2

/-- After collapsing with the flag set, the result cannot start with a
whitespace character. -/
theorem collapseWsAux_true_head :
    ∀ (s : List Char) (c : Char) (cs : List Char),
      collapseWsAux true s = c :: cs → pyIsSpace c = false := by
  intro s
  induction s with
  | nil => intro c cs h; exact absurd h (by simp [collapseWsAux])
  | cons d rest ih =>
    intro c cs h
    rw [collapseWsAux] at h
    by_cases hd : pyIsSpace d
    · rw [if_pos hd, if_pos rfl] at h
      exact ih c cs h
    · rw [if_neg hd] at h
      rw [← (List.cons.inj h).1]
      exact Bool.not_eq_true _ ▸ hd

/-- Collapsing whitespace establishes the whitespace normal form. -/
theorem spacesOk_collapseWsAux :
    ∀ (s : List Char) (b : Bool), spacesOk (collapseWsAux b s) = true := by
  intro s
  induction s with
  | nil => intro b; rfl
  | cons d cs ih =>
    intro b
    rw [collapseWsAux]
    by_cases hd : pyIsSpace d
    · rw [if_pos hd]
      by_cases hb : b
      · rw [if_pos hb]
        exact ih true
      · rw [if_neg hb]
        rcases hx : collapseWsAux true cs with _ | ⟨c, rest⟩
        · decide
        · have hc := collapseWsAux_true_head cs c rest hx
          have := ih true
          rw [hx] at this
          rw [spacesOk]
          simp [hc, this]
    · rw [if_neg hd]
      rcases hx : collapseWsAux false cs with _ | ⟨c, rest⟩
      · simp [spacesOk, hd]
      · have := ih false
        rw [hx] at this
        rw [spacesOk]
        simp [hd, this]

/-- With a non-whitespace head (or no head), the collapse flag does not
matter. -/
theorem collapseWsAux_flag_irrelevant :
    ∀ (s : List Char), (∀ c cs, s = c :: cs → pyIsSpace c = false) →
      collapseWsAux true s = collapseWsAux false s := by
  intro s h
  cases s with
  | nil => rfl
  | cons c cs =>
    have hc := h c cs rfl
    rw [collapseWsAux, collapseWsAux, if_neg (by simp [hc]), if_neg (by simp [hc])]

/-- Collapsing whitespace is the identity on lists already in whitespace
normal form. -/
theorem collapseWsAux_eq_self :
    ∀ s : List Char, spacesOk s = true → collapseWsAux false s = s := by
  intro s
  induction s with
  | nil => intro _; rfl
  | cons c cs ih =>
    intro h
    by_cases hc : pyIsSpace c
    · have hpair : c = ' ' ∧ (∀ d rest, cs = d :: rest → pyIsSpace d = false) := by
        cases cs with
        | nil =>
          refine ⟨?_, by intro d rest h1; exact absurd h1 (by simp)⟩
          rw [spacesOk] at h
          simpa [hc] using h
        | cons d rest =>
          rw [spacesOk] at h
          have h1 := (Bool.and_eq_true_iff.mp h).1
          rw [hc] at h1
          have h2 : c = ' ' ∧ pyIsSpace d = false := by simpa using h1
          refine ⟨h2.1, ?_⟩
          intro d2 rest2 h3
          rw [← (List.cons.inj h3).1]
          exact h2.2
      rw [collapseWsAux, if_pos hc, if_neg Bool.false_ne_true,
        collapseWsAux_flag_irrelevant cs hpair.2, ih (spacesOk_tail h), hpair.1]
    · rw [collapseWsAux, if_neg hc, ih (spacesOk_tail h)]

/-- Dropping a leading run preserves the whitespace normal form. -/
theorem spacesOk_dropWhile {p : Char → Bool} :
    ∀ s : List Char, spacesOk s = true → spacesOk (s.dropWhile p) = true := by
  intro s
  induction s with
  | nil => intro _; rfl
  | cons c cs ih =>
    intro h
    rw [List.dropWhile]
    by_cases hc : p c
    · rw [hc]
      exact ih (spacesOk_tail h)
    · rw [Bool.not_eq_true] at hc
      rw [hc]
      exact h

/-- The head survives dropping a trailing run, unless nothing survives. -/
theorem dropEndWhile_head {p : Char → Bool} (d : Char) (rest : List Char) :
    dropEndWhile p (d :: rest) = [] ∨
      ∃ r2, dropEndWhile p (d :: rest) = d :: r2 := by
  rw [dropEndWhile]
  split
  · exact Or.inl rfl
  · exact Or.inr ⟨_, rfl⟩

/-- Dropping a trailing run preserves the whitespace normal form. -/
theorem spacesOk_dropEndWhile {p : Char → Bool} :
    ∀ s : List Char, spacesOk s = true → spacesOk (dropEndWhile p s) = true := by
  intro s
  induction s with
  | nil => intro _; rfl
  | cons c cs ih =>
    intro h
    rw [dropEndWhile]
    split
    · rfl
    · have hcs := ih (spacesOk_tail h)
      cases cs with
      | nil => simpa [dropEndWhile] using h
      | cons d rest =>
        rcases dropEndWhile_head (p := p) d rest with h1 | ⟨r2, h1⟩
        · rw [h1]
          rw [spacesOk] at h
          have := (Bool.and_eq_true_iff.mp h).1
          rw [spacesOk]
          rcases Bool.or_eq_true_iff.mp this with h2 | h2
          · simp [h2]
          · simp [Bool.and_eq_true_iff.mp h2]
        · rw [h1]
          rw [h1] at hcs
          rw [spacesOk] at h ⊢
          exact Bool.and_eq_true_iff.mpr ⟨(Bool.and_eq_true_iff.mp h).1, hcs⟩

/-- Stripping preserves the whitespace normal form. -/
theorem spacesOk_pyStrip {s : List Char} (h : spacesOk s = true) :
    spacesOk (pyStrip s) = true :=
  spacesOk_dropEndWhile _ (spacesOk_dropWhile _ h)

/-- Normal form of the strings produced by `normalize_skill`: every
character is fixed by lowercasing, every character is in the kept character
class, and whitespace is in normal form.  Being trimmed is deliberately not
part of this notion. -/
def normalForm (s : String) : Bool :=
  s.data.all (fun c => pyToLower c = c) &&
  s.data.all allowedChar &&
  spacesOk s.data

/-- Every output of `normalize_skill` is in normal form. -/
theorem normalize_skill_normalForm (x : String) :
    normalForm (normalize_skill x) = true := by
  rw [normalForm, normalize_skill]
  refine Bool.and_eq_true_iff.mpr ⟨Bool.and_eq_true_iff.mpr ⟨?_, ?_⟩, ?_⟩
  · rw [List.all_eq_true]
    intro c hc
    rcases mem_collapseWsAux false _ hc with h | h
    · simp [h]
      decide
    · have h1 := List.mem_filter.mp h
      rcases List.mem_map.mp (List.dropWhile_sublist pyIsSpace |>.subset
        (mem_dropEndWhile _ h1.1)) with ⟨c0, _, hc0⟩
      simp [← hc0, pyToLower_idem]
  · rw [List.all_eq_true]
    intro c hc
    rcases mem_collapseWsAux false _ hc with h | h
    · simp [h]
      decide
    · simpa using (List.mem_filter.mp h).2
  · exact spacesOk_collapseWsAux _ false

/-- Mapping a function that fixes every element is the identity. -/
theorem map_eq_self_of_fixed {f : Char → Char} :
    ∀ s : List Char, (∀ c ∈ s, f c = c) → s.map f = s := by
  intro s
  induction s with
  | nil => intro _; rfl
  | cons c cs ih =>
    intro h
    rw [List.map_cons, h c (List.mem_cons_self _ _),
      ih (fun d hd => h d (List.mem_cons_of_mem _ hd))]

/-- Claim C2, key computation: renormalizing a normalized skill only strips
the whitespace that removing special characters may have exposed at the
ends. -/
theorem normalize_skill_twice (x : String) :
    normalize_skill (normalize_skill x) = pyStripS (normalize_skill x) := by
  have hnf := normalize_skill_normalForm x
  rw [normalForm, Bool.and_eq_true_iff, Bool.and_eq_true_iff] at hnf
  obtain ⟨⟨hlow, hallow⟩, hsp⟩ := hnf
  rw [List.all_eq_true] at hlow hallow
  conv_lhs => rw [normalize_skill]
  rw [pyStripS]
  congr 1
  rw [pyLower, map_eq_self_of_fixed _ (fun c hc => by simpa using hlow c hc)]
  rw [List.filter_eq_self.mpr
    (fun c hc => by simpa using hallow c (mem_pyStrip hc))]
  rw [collapseWs, collapseWsAux_eq_self _ (spacesOk_pyStrip hsp)]

/-! ### Claim C2: idempotence of skill normalization -/

/-- Counterexample to claim C2 as stated: removing the special character of
this input exposes a leading space that the already-performed strip no
longer removes, so a second normalization differs from the first. -/
theorem normalize_skill_not_idempotent_cex :
    normalize_skill (normalize_skill ("@ a")) ≠ normalize_skill ("@ a") := by
  decide

/-! ### Claim C3: normal form of the matching and missing lists -/

/-- Counterexample to claim C3 as stated: a job skill whose normalization
keeps a leading space lands untrimmed in the missing list. -/
theorem find_skill_matches_untrimmed_cex :
    (find_skill_matches [] [("@ a")]).2 = [(" a")] ∧
      pyStripS (" a") ≠ (" a") := by
  refine ⟨by decide, by decide⟩

/-- Every skill classified by the matching loop is one of the classified
job skills. -/
theorem mem_matchLoop {nr : List String} {s : String} :
    ∀ l : List String,
      s ∈ (matchLoop nr l).1 ∨ s ∈ (matchLoop nr l).2 → s ∈ l := by
  intro l
  induction l with
  | nil => intro h; rcases h with h | h <;> exact absurd h (by simp [matchLoop])
  | cons j rest ih =>
    intro h
    rw [matchLoop] at h
    split at h
    · rcases h with h | h
      · rcases List.mem_cons.mp h with h1 | h1
        · exact h1 ▸ List.mem_cons_self _ _
        · exact List.mem_cons_of_mem _ (ih (Or.inl h1))
      · exact List.mem_cons_of_mem _ (ih (Or.inr h))
    · rcases h with h | h
      · exact List.mem_cons_of_mem _ (ih (Or.inl h))
      · rcases List.mem_cons.mp h with h1 | h1
        · exact h1 ▸ List.mem_cons_self _ _
        · exact List.mem_cons_of_mem _ (ih (Or.inr h1))

/-- Claim C3 as amended: every string in the matching or missing lists of
`find_skill_matches` is the normalization of one of the job skills, hence
lower-case, drawn from the kept character class, with whitespace runs
collapsed to single spaces; it need not be trimmed. -/
theorem find_skill_matches_normalized (rs js : List String) (s : String)
    (h : s ∈ (find_skill_matches rs js).1 ∨ s ∈ (find_skill_matches rs js).2) :
    normalForm s = true ∧ ∃ j ∈ js, s = normalize_skill j := by
  have hmem : s ∈ js.map normalize_skill := mem_matchLoop _ h
  rcases List.mem_map.mp hmem with ⟨j, hj, hjs⟩
  exact ⟨hjs ▸ normalize_skill_normalForm j, j, hj, hjs.symm⟩

/-- Witness for the amended C3 at a concrete call. -/
theorem find_skill_matches_normalized_witness :
    normalForm ("python") = true ∧
      ∃ j ∈ [("Python")], ("python" : String) = normalize_skill j :=
  find_skill_matches_normalized [] [("Python")] ("python")
    (Or.inr (by decide))

/-! ### Claim C7: experience-gap clamping -/

/-- Claim C7: `calculate_experience_gap` clamps at zero and propagates
absence: with resume experience 7 and required years 5 it returns 0; with
resume experience 2 and required years 5 it returns 3; with resume
experience `None` and no required-years value it returns `None`; and every
integer it returns is nonnegative. -/
theorem calculate_experience_gap_clamps :
    (∀ jr : JobReqDict, jr.required_experience_years = some 5 →
      calculate_experience_gap (some 7) jr = some 0 ∧
      calculate_experience_gap (some 2) jr = some 3) ∧
    (∀ jr : JobReqDict, jr.required_experience_years = none →
      calculate_experience_gap none jr = none) ∧
    (∀ (re : Option Int) (jr : JobReqDict) (g : Int),
      calculate_experience_gap re jr = some g → 0 ≤ g) := by
  refine ⟨fun jr h => ?_, fun jr h => ?_, fun re jr g h => ?_⟩
  · constructor <;> norm_num [calculate_experience_gap, h]
  · simp [calculate_experience_gap, h]
  · rcases hr : jr.required_experience_years with _ | ry
    · simp [calculate_experience_gap, hr] at h
    · simp only [calculate_experience_gap, hr] at h
      by_cases h0 : ry = 0
      · rw [if_pos h0] at h
        exact absurd h (by simp)
      · rw [if_neg h0] at h
        have hg := Option.some.inj h
        split at hg <;> omega

/-- Witness for C7 at a concrete requirement dictionary. -/
theorem calculate_experience_gap_clamps_witness :
    calculate_experience_gap (some 7)
      ⟨none, none, none, none, none, none, some 5, none⟩ = some 0 :=
  (calculate_experience_gap_clamps.1 _ rfl).1

/-! ### Claim C5: zero-denominator policy of the overall score -/

/-- Claim C5: when the required-skill, programming-language and framework
lists of the job requirements are all empty (in particular for the empty
dictionary), `analyze_gap` returns an overall match score of exactly 0, for
every resume; in the model `analyze_gap` is a total function, so no error is
possible. -/
theorem analyze_gap_zero_denominator (rd : ResumeData) (jr : JobReqDict)
    (h1 : jr.required_skills.getD [] = [])
    (h2 : jr.programming_languages.getD [] = [])
    (h3 : jr.frameworks.getD [] = []) :
    (analyze_gap rd jr).overall_match_score = 0 := by
  simp [analyze_gap, h1, h2, h3]

/-- Witness for C5 at the empty requirement dictionary and empty resume. -/
theorem analyze_gap_zero_denominator_witness :
    (analyze_gap ⟨none⟩
      ⟨none, none, none, none, none, none, none, none⟩).overall_match_score = 0 :=
  analyze_gap_zero_denominator _ _ rfl rfl rfl

/-! ### Claim C6: boundedness of the overall score -/

/-- Claim C6: for every resume and every job-requirements dictionary, the
overall match score of `analyze_gap` lies in the closed interval from 0
to 1. -/
theorem analyze_gap_score_bounded (rd : ResumeData) (jr : JobReqDict) :
    0 ≤ (analyze_gap rd jr).overall_match_score ∧
    (analyze_gap rd jr).overall_match_score ≤ 1 := by
  simp only [analyze_gap]
  split
  · constructor
    · refine le_min ?_ (by norm_num)
      rw [Rat.mkRat_eq_div]
      positivity
    · exact min_le_right _ _
  · norm_num

/-! ### Claim C10: the experience fields do not depend on the resume -/

/-- Claim C10: the experience fields of `analyze_gap` are independent of the
resume: any two resumes yield the same `experience_gap` and the same
`experience_level_match`; `experience_level_match` holds exactly when the
job's experience level ranks at most 2 (the rank of `mid`, the constant
resume level of the source); and for a truthy required-years value `n` the
gap is exactly `max (n - 2) 0`, because the resume years are fixed to the
default 2. -/
theorem analyze_gap_experience_resume_independent
    (r1 r2 : ResumeData) (jr : JobReqDict) :
    (analyze_gap r1 jr).experience_gap = (analyze_gap r2 jr).experience_gap ∧
    (analyze_gap r1 jr).experience_level_match =
      (analyze_gap r2 jr).experience_level_match ∧
    ((analyze_gap r1 jr).experience_level_match =
      decide (levelRank (jr.experience_level.getD ("entry")) ≤ 2)) ∧
    (∀ n : Int, jr.required_experience_years = some n → n ≠ 0 →
      (analyze_gap r1 jr).experience_gap = some (max (n - 2) 0)) := by
  refine ⟨rfl, rfl, ?_, fun n hn h0 => ?_⟩
  · have h2 : levelRank ("mid") = 2 := by decide
    simp only [analyze_gap, check_experience_level_match, h2]
  · simp only [analyze_gap, calculate_experience_gap, hn]
    rw [if_neg h0]
    congr 1
    split <;> omega

/-- Witness for C10 at a concrete job-requirements dictionary. -/
theorem analyze_gap_experience_resume_independent_witness :
    (analyze_gap ⟨none⟩
      ⟨none, none, none, none, none, none, some 5,
        some ("senior")⟩).experience_gap = some (max ((5 : Int) - 2) 0) :=
  (analyze_gap_experience_resume_independent ⟨none⟩ ⟨none⟩ _).2.2.2 5 rfl
    (by decide)

/-! ### Claim C9: empty-input policy of the job analyzer -/

/-- Claim C9: `analyze_job_description` rejects every empty or
whitespace-only description with an error, while the extraction functions
themselves do not fail on empty input: `extract_basic_requirements` of the
empty string is the default-valued `JobRequirements`, and
`extract_skills_from_resume` of the empty dictionary is the empty list. -/
theorem analyze_job_description_empty_policy :
    (∀ jd : String, pyStrip jd.data = [] →
      analyze_job_description jd =
        Except.error ("Job description cannot be empty")) ∧
    extract_basic_requirements ("") = ({} : JobRequirements) ∧
    extract_skills_from_resume ⟨none⟩ = [] := by
  refine ⟨fun jd h => ?_, by decide, by decide⟩
  simp [analyze_job_description, h]

/-- Witness for C9 on a whitespace-only description. -/
theorem analyze_job_description_empty_policy_witness :
    analyze_job_description ("   ") =
      Except.error ("Job description cannot be empty") :=
  analyze_job_description_empty_policy.1 ("   ") (by decide)

/-! ### Claim C1: empty skills in the similarity test -/

/-- Counterexample to claim C1 as stated: the empty string is similar to a
non-empty skill at the default threshold, because the Python containment
test treats the empty string as a substring of every string. -/
theorem are_skills_similar_empty_cex :
    are_skills_similar ("") ("python") defaultThreshold = true := by decide

/-- Claim C1 as amended: when at least one of the two skills normalizes to
the empty string, `are_skills_similar` returns true for every threshold (the
containment test accepts before the final `False` can be reached; two empty
strings are already equal). -/
theorem are_skills_similar_empty_always_matches (a b : String) (t : ℚ)
    (h : normalize_skill a = ("") ∨ normalize_skill b = ("")) :
    are_skills_similar a b t = true := by
  have hin : ∀ x y : String, x.data = [] → pyIn x y = true := by
    intro x y hx
    rw [pyIn, hx, subIn_nil]
  simp only [are_skills_similar]
  split
  · rfl
  · split
    · rfl
    · split
      · rfl
      · split
        · rfl
        · rename_i h4
          exfalso
          apply h4
          rcases h with h | h
          · rw [hin (normalize_skill a) (normalize_skill b) (by simp [h]),
              Bool.true_or]
          · rw [hin (normalize_skill b) (normalize_skill a) (by simp [h]),
              Bool.or_true]

/-- Witness for the amended C1 at a concrete pair. -/
theorem are_skills_similar_empty_always_matches_witness :
    are_skills_similar ("python") ("") defaultThreshold = true :=
  are_skills_similar_empty_always_matches _ _ _ (Or.inr (by decide))

/-! ### Claim C4: symmetry of the similarity test -/

/-- Counterexample to claim C4 as stated: `SequenceMatcher.ratio` is not
symmetric, so at threshold 7/10 the similarity test gives different answers
on the two orders of this pair (the ratios are 3/4 and 1/2, and no other
test fires). -/
theorem are_skills_similar_asymmetric_cex :
    are_skills_similar ("aba") ("babba") (mkRat 7 10) = true ∧
    are_skills_similar ("babba") ("aba") (mkRat 7 10) = false :=
  ⟨by decide, by decide⟩

/-- Claim C4 as amended: `are_skills_similar` is symmetric at every
threshold for which it matters, namely whenever the fuzzy ratio of the
normalized pair is the same in both orders; the exact, synonym and
containment tests are symmetric unconditionally, and only the ratio test can
break symmetry. -/
theorem are_skills_similar_symm_of_ratio_symm (a b : String) (t : ℚ)
    (h : pyRatioS (normalize_skill a) (normalize_skill b) =
      pyRatioS (normalize_skill b) (normalize_skill a)) :
    are_skills_similar a b t = are_skills_similar b a t := by
  have e1 : (normalize_skill b = normalize_skill a) ↔
      (normalize_skill a = normalize_skill b) := eq_comm
  simp only [are_skills_similar, h, e1,
    any_and_comm skill_synonyms (normalize_skill b) (normalize_skill a),
    Bool.or_comm]

/-- Witness for the amended C4 at a concrete symmetric-ratio pair. -/
theorem are_skills_similar_symm_of_ratio_symm_witness :
    are_skills_similar ("react") ("reactjs") defaultThreshold =
      are_skills_similar ("reactjs") ("react") defaultThreshold :=
  are_skills_similar_symm_of_ratio_symm _ _ _ (by decide)

/-! ### Claim C8: priority ordering -/

/-- Claim C8: for a gap result with exactly one missing item in each of the
six categories, `calculate_priority_scores` returns the items in exactly the
category order required skill (10), programming language (8), framework (7),
database (6), cloud platform (6), preferred skill (4): a stable descending
sort with the required-skill item strictly first, the preferred-skill item
strictly last, and the tied database/cloud pair keeping insertion order. -/
theorem calculate_priority_scores_ordered (g : GapAnalysisResult)
    (a b c d e f : String)
    (h1 : g.missing_required_skills = [a])
    (h2 : g.missing_languages = [b])
    (h3 : g.missing_frameworks = [c])
    (h4 : g.missing_databases = [d])
    (h5 : g.missing_cloud_platforms = [e])
    (h6 : g.missing_preferred_skills = [f]) :
    calculate_priority_scores g =
      [PriorityItem.mk ("Required Skill") a 10 ("Critical"),
       PriorityItem.mk ("Programming Language") b 8 ("High"),
       PriorityItem.mk ("Framework") c 7 ("High"),
       PriorityItem.mk ("Database") d 6 ("Medium"),
       PriorityItem.mk ("Cloud Platform") e 6 ("Medium"),
       PriorityItem.mk ("Preferred Skill") f 4 ("Low")] ∧
    List.Chain' (fun x y => y.priority_score ≤ x.priority_score)
      (calculate_priority_scores g) := by
  have heq : calculate_priority_scores g =
      [PriorityItem.mk ("Required Skill") a 10 ("Critical"),
       PriorityItem.mk ("Programming Language") b 8 ("High"),
       PriorityItem.mk ("Framework") c 7 ("High"),
       PriorityItem.mk ("Database") d 6 ("Medium"),
       PriorityItem.mk ("Cloud Platform") e 6 ("Medium"),
       PriorityItem.mk ("Preferred Skill") f 4 ("Low")] := by
    simp [calculate_priority_scores, h1, h2, h3, h4, h5, h6,
      List.insertionSort, List.orderedInsert, priorityGe]
  refine ⟨heq, ?_⟩
  rw [heq]
  simp [List.chain'_cons]

/-- Witness for C8 at a concrete gap result. -/
theorem calculate_priority_scores_ordered_witness :
    calculate_priority_scores
      { missing_required_skills := [("graphql")]
        missing_languages := [("go")]
        missing_frameworks := [("vue")]
        missing_databases := [("mongodb")]
        missing_cloud_platforms := [("azure")]
        missing_preferred_skills := [("figma")] } =
      [PriorityItem.mk ("Required Skill") ("graphql") 10 ("Critical"),
       PriorityItem.mk ("Programming Language") ("go") 8 ("High"),
       PriorityItem.mk ("Framework") ("vue") 7 ("High"),
       PriorityItem.mk ("Database") ("mongodb") 6 ("Medium"),
       PriorityItem.mk ("Cloud Platform") ("azure") 6 ("Medium"),
       PriorityItem.mk ("Preferred Skill") ("figma") 4 ("Low")] :=
  (calculate_priority_scores_ordered _ _ _ _ _ _ _
    rfl rfl rfl rfl rfl rfl).1

end ResumeAI
